import Mathlib

/-!
Verification of the cross-timezone meeting-slot finder: the POST
/find-meeting-slots handler of the sales-tool service.

Modelling conventions.  Instants are minutes since an arbitrary epoch, as
integers.  A time zone is modelled by its offset from universal time in
minutes, supplied by an environment `TzEnv`; the zone-validity test, the
timestamp formatter (luxon toFormat), the URI-component encoder and the ISO
serialiser of the runtime library are likewise fields of `TzEnv`, since they
are external-library behaviour, not code of this repository.  Local civil
time of an instant `t` in zone `z` is `t + offset z`; the hour of a local
time is floor division by 60 followed by reduction mod 24, matching a
fixed-offset zoned-time library.  Fallible or branching code is modelled by
explicit `Option` / sum types.
-/

/-- Environment abstracting the zoned-time runtime (luxon) and the two
string encoders used by the handler.  `offset z` is the offset of zone `z`
in minutes; `valid z` models `DateTime.now().setZone(z).isValid` including
the surrounding try/catch; `fmt` maps a local civil time in minutes to the
string produced by `toFormat` with the fixed pattern; `enc` models
`encodeURIComponent`; `iso local off` models `toISO` of the instant whose
local time is `local` in a zone of offset `off`. -/
structure TzEnv where
  offset : String → Int
  valid : String → Bool
  fmt : Int → String
  enc : String → String
  iso : Int → Int → String

/-- Request body of POST /find-meeting-slots.  A field that is absent from
the JSON body is `none`; a string field is `some`. -/
structure Req where
  userTimezone : Option String
  leadLocations : Option String
  callDuration : Option String
deriving DecidableEq

/-- Response of the handler: `badRequest msg` models
`res.status(400).json(\x7b error: msg \x7d)`; `ok html link` models
`res.json(\x7b slotsTableHtml: html, meetingLink: link \x7d)`, a 200-class
response. -/
inductive Resp where
  | badRequest (error : String)
  | ok (slotsTableHtml : String) (meetingLink : String)
deriving DecidableEq

/-- One accepted slot as pushed onto `slots` by the handler. -/
structure Slot where
  user : String
  leads : List String
  link : String
deriving DecidableEq

/-- Model of JavaScript `s.toLowerCase()` (ASCII range, which covers every
key of the city table). -/
def jsToLower (s : String) : String := String.mk (s.data.map Char.toLower)

/-- Model of JavaScript `s.trim()`: strip whitespace from both ends. -/
def jsTrim (s : String) : String :=
  String.mk (((s.data.dropWhile Char.isWhitespace).reverse.dropWhile Char.isWhitespace).reverse)

/-- Splits a character list at every occurrence of `sep`; `acc` holds the
current piece reversed. -/
def splitChar (sep : Char) : List Char → List Char → List String
  | [], acc => [String.mk acc.reverse]
  | c :: cs, acc =>
    if c = sep then String.mk acc.reverse :: splitChar sep cs []
    else splitChar sep cs (c :: acc)

/-- Model of JavaScript `s.split(',')`. -/
def jsSplitComma (s : String) : List String := splitChar ',' s.data []

/-- Value of a digit string, most significant first. -/
def digitsVal (cs : List Char) : Nat := cs.foldl (fun a c => a * 10 + (c.toNat - 48)) 0

/-- Model of JavaScript `parseInt(s, 10)`: skip leading whitespace, read an
optional sign and then a maximal digit run; `none` models NaN (no digits). -/
def parseIntM (s : String) : Option Int :=
  let cs :=
    match (jsTrim s).data with
    | '-' :: rest => ((-1 : Int), rest)
    | '+' :: rest => ((1 : Int), rest)
    | rest => ((1 : Int), rest)
  let ds := cs.2.takeWhile Char.isDigit
  if ds.isEmpty then none else some (cs.1 * (digitsVal ds : Int))

/-- Line 756 of the handler: `const duration = parseInt(callDuration, 10) || 30`.
An absent field parses to NaN; `||` replaces both NaN and 0 by 30. -/
def computeDuration (callDuration : Option String) : Int :=
  match callDuration with
  | none => 30
  | some s =>
    match parseIntM s with
    | none => 30
    | some n => if n = 0 then 30 else n

/-- The fixed city-to-zone table of the handler, in source order. -/
def cityToTz : List (String × String) :=
  [("new york", "America/New_York"),
   ("london", "Europe/London"),
   ("mumbai", "Asia/Kolkata"),
   ("san francisco", "America/Los_Angeles"),
   ("berlin", "Europe/Berlin"),
   ("sydney", "Australia/Sydney"),
   ("tokyo", "Asia/Tokyo"),
   ("singapore", "Asia/Singapore"),
   ("paris", "Europe/Paris"),
   ("chicago", "America/Chicago"),
   ("delhi", "Asia/Kolkata"),
   ("boston", "America/New_York"),
   ("los angeles", "America/Los_Angeles"),
   ("toronto", "America/Toronto"),
   ("dubai", "Asia/Dubai"),
   ("shanghai", "Asia/Shanghai"),
   ("hong kong", "Asia/Hong_Kong"),
   ("seoul", "Asia/Seoul"),
   ("amsterdam", "Europe/Amsterdam"),
   ("zurich", "Europe/Zurich"),
   ("madrid", "Europe/Madrid"),
   ("rome", "Europe/Rome"),
   ("istanbul", "Europe/Istanbul"),
   ("johannesburg", "Africa/Johannesburg"),
   ("sao paulo", "America/Sao_Paulo"),
   ("mexico city", "America/Mexico_City"),
   ("vancouver", "America/Vancouver"),
   ("bengaluru", "Asia/Kolkata")]

/-- Own-property lookup in the city table. -/
def lookupCity (k : String) : Option String :=
  (cityToTz.find? (fun p => p.1 = k)).map Prod.snd

/-- One step of line 792: `cityToTz[tz.toLowerCase()] || tz || 'UTC'`. -/
def resolveToken (tz : String) : String :=
  match lookupCity (jsToLower tz) with
  | some z => z
  | none => if tz = "" then "UTC" else tz

/-- Line 757: `leadLocations.split(',').map(s => s.trim()).filter(Boolean)`. -/
def tokenize (s : String) : List String :=
  ((jsSplitComma s).map jsTrim).filter (fun t => !t.isEmpty)

/-- Line 792: the list of resolved zone identifiers, in input order. -/
def resolvedTzs (leadLocations : String) : List String :=
  (tokenize leadLocations).map resolveToken

/-- JavaScript `Math.ceil(d / 60)` on an integer `d`, as floor division. -/
def ceilDiv60 (d : Int) : Int := (d + 59) / 60

/-- The candidate start hours of one day, line 805:
`for (let hour = 9; hour <= 17 - Math.ceil(duration/60); hour++)`. -/
def candidateHours (d : Int) : List Int :=
  (List.range (17 - ceilDiv60 d - 8).toNat).map (fun i : Nat => (9 : Int) + (i : Int))

/-- Local hour (0..23) of instant `t` in zone `tz`. -/
def hourIn (env : TzEnv) (tz : String) (t : Int) : Int :=
  ((t + env.offset tz) / 60) % 24

/-- Lines 811-819: the slot passes for every lead zone exactly when the
projected start hour is at least 9 and the projected end hour is at most 17. -/
def allOk (env : TzEnv) (zones : List String) (s e : Int) : Bool :=
  zones.all (fun tz => decide (9 ≤ hourIn env tz s) && decide (hourIn env tz e ≤ 17))

/-- Line 806: the instant of the candidate start for day offset `day` and
hour `h`: now in the organizer zone, plus `day` days, with the local clock
set to `\x7b hour: h, minute: 0, second: 0, millisecond: 0 \x7d`. -/
def startOfSlot (env : TzEnv) (now : Int) (uTz : String) (day : Int) (h : Int) : Int :=
  1440 * ((now + env.offset uTz + day * 1440) / 1440) + 60 * h - env.offset uTz

/-- Lines 820-826: the record pushed for an accepted slot of start instant `s`. -/
def mkSlot (env : TzEnv) (uTz : String) (zones : List String) (d : Int) (s : Int) : Slot :=
  { user := env.fmt (s + env.offset uTz) ++ " (" ++ uTz ++ ")"
  , leads := zones.map (fun tz => env.fmt (s + env.offset tz) ++ " (" ++ tz ++ ")")
  , link := "https://cal.com/book?tz=" ++ env.enc uTz ++ "&start=" ++
      env.enc (env.iso (s + env.offset uTz) (env.offset uTz)) ++ "&duration=" ++ toString d }

/-- Lines 803-828: the nested day/hour loops, pushing a slot whenever
`allOk` holds. -/
def findSlots (env : TzEnv) (now : Int) (uTz : String) (zones : List String) (d : Int) : List Slot :=
  (List.range 3).flatMap (fun day =>
    (candidateHours d).filterMap (fun h =>
      if allOk env zones (startOfSlot env now uTz (day : Int) h)
          (startOfSlot env now uTz (day : Int) h + d)
      then some (mkSlot env uTz zones d (startOfSlot env now uTz (day : Int) h))
      else none))

/-- The start instants of the accepted slots, in push order (ghost view of
`findSlots` used to state chronology). -/
def findSlotStarts (env : TzEnv) (now : Int) (uTz : String) (zones : List String) (d : Int) : List Int :=
  (List.range 3).flatMap (fun day =>
    (((candidateHours d).map (startOfSlot env now uTz (day : Int))).filter
      (fun s => allOk env zones s (s + d))))

/-- Lines 830-834: the table header row. -/
def tableHeader (zones : List String) : String :=
  "<table style=\"width:100%;border-collapse:collapse;background:#fff;color:#333;\">" ++
  "<tr><th style=\"padding:8px;border-bottom:1px solid #ccc;\">Your Time</th>" ++
  String.join ((zones.enum).map (fun p =>
    "<th style=\"padding:8px;border-bottom:1px solid #ccc;\">Lead " ++ toString (p.1 + 1) ++
    " (" ++ p.2 ++ ")</th>")) ++
  "</tr>"

/-- Line 837: the single empty-state row, with its colspan over all columns. -/
def emptyRow (n : Nat) : String :=
  "<tr><td colspan=\"" ++ toString n ++
  "\" style=\"padding:12px;color:#ff5252;text-align:center;\">No overlapping slots found for the next 3 days.</td></tr>"

/-- Lines 839-847: one table row per accepted slot. -/
def slotRow (slot : Slot) : String :=
  "<tr>" ++ "<td style=\"padding:8px;border-bottom:1px solid #eee;\">" ++ slot.user ++ "</td>" ++
  String.join (slot.leads.map (fun lt =>
    "<td style=\"padding:8px;border-bottom:1px solid #eee;\">" ++ lt ++ "</td>")) ++
  "</tr>"

/-- Lines 829-849: the full slots table. -/
def buildTable (zones : List String) (slots : List Slot) : String :=
  tableHeader zones ++
  (if slots.isEmpty then emptyRow (1 + zones.length) else String.join (slots.map slotRow)) ++
  "</table>"

/-- The degraded-success body for an invalid zone, line 801. -/
def invalidTzHtml : String :=
  "<div style=\"color:#ff5252;\">Invalid timezone(s) provided.</div>"

/-- The degraded-success body of the catch-all, line 854. -/
def serverErrorHtml : String :=
  "<div style=\"color:#ff5252;\">Server error: Unable to find meeting slots.</div>"

/-- Lines 748-852: the body of the handler inside the try block.  The two
required-field checks return 400; an invalid zone returns the degraded
200-class payload before any search; otherwise the search runs and the
response carries the table and the link of the first accepted slot. -/
def handlerBody (env : TzEnv) (now : Int) (req : Req) : Resp :=
  match req.userTimezone with
  | none => Resp.badRequest "Please provide your timezone."
  | some uTz =>
    if jsTrim uTz = "" then Resp.badRequest "Please provide your timezone." else
    match req.leadLocations with
    | none => Resp.badRequest "Please provide lead locations."
    | some lls =>
      if jsTrim lls = "" then Resp.badRequest "Please provide lead locations." else
      let duration := computeDuration req.callDuration
      let zones := resolvedTzs lls
      if !((uTz :: zones).all env.valid) then Resp.ok invalidTzHtml "" else
      let slots := findSlots env now uTz zones duration
      Resp.ok (buildTable zones slots)
        (match slots with
         | [] => ""
         | s :: _ => s.link)

/-- Lines 853-856: the catch clause at the handler boundary turns any thrown
fault into the generic degraded-success payload. -/
def catchBoundary (r : Except String Resp) : Resp :=
  match r with
  | Except.ok resp => resp
  | Except.error _ => Resp.ok serverErrorHtml ""

/-- The whole handler: the try block around `handlerBody` (which is total in
this model, so the normal path is the `Except.ok` case). -/
def handler (env : TzEnv) (now : Int) (req : Req) : Resp :=
  catchBoundary (Except.ok (handlerBody env now req))

/-- Concrete environment for witnesses: every zone valid with offset 0,
transparent formatter and encoders. -/
def env0 : TzEnv :=
  { offset := fun _ => 0
  , valid := fun _ => true
  , fmt := fun n => toString n
  , enc := fun s => s
  , iso := fun l _ => toString l }

/-- Concrete environment in which the identifier produced by the token
"Nowhere City" fails zoned-time validation. -/
def envNowhere : TzEnv :=
  { env0 with valid := fun s => s != "Nowhere City" }

/-! ## Basic lemmas about the candidate enumeration -/

lemma mem_candidateHours (d h : Int) :
    h ∈ candidateHours d ↔ 9 ≤ h ∧ h ≤ 17 - ceilDiv60 d := by
  unfold candidateHours ceilDiv60
  constructor
  · intro hmem
    obtain ⟨i, hi, hEq⟩ := List.mem_map.mp hmem
    rw [List.mem_range] at hi
    subst hEq
    omega
  · intro hb
    refine List.mem_map.mpr ⟨(h - 9).toNat, List.mem_range.mpr ?_, ?_⟩
    · omega
    · omega

lemma startOfSlot_eq (env : TzEnv) (now : Int) (uTz : String) (day h : Int) :
    startOfSlot env now uTz day h =
      1440 * ((now + env.offset uTz) / 1440) - env.offset uTz + 1440 * day + 60 * h := by
  unfold startOfSlot
  omega

/-! ## Duration congruence: the handler depends on callDuration only through
`computeDuration` -/

lemma handler_congr_dur (env : TzEnv) (now : Int) (req : Req) (c : Option String)
    (h : computeDuration req.callDuration = computeDuration c) :
    handler env now req = handler env now { req with callDuration := c } := by
  obtain ⟨u, l, cd⟩ := req
  simp only at h
  simp only [handler, catchBoundary, handlerBody, h]

lemma filterMap_if_eq (p : Int → Bool) (g : Int → Int) (m : Int → Slot) (l : List Int) :
    l.filterMap (fun h => if p (g h) then some (m (g h)) else none) =
      ((l.map g).filter p).map m := by
  induction l with
  | nil => rfl
  | cons a t ih =>
    simp only [List.filterMap_cons, List.map_cons, List.filter_cons]
    cases hp : p (g a) <;> simp [hp, ih]

lemma findSlots_eq_map (env : TzEnv) (now : Int) (uTz : String) (zones : List String) (d : Int) :
    findSlots env now uTz zones d =
      (findSlotStarts env now uTz zones d).map (mkSlot env uTz zones d) := by
  unfold findSlots findSlotStarts
  have h3 : List.range 3 = [0, 1, 2] := rfl
  rw [h3]
  simp only [List.flatMap_cons, List.flatMap_nil, List.map_append, List.append_nil]
  rw [filterMap_if_eq (fun s => allOk env zones s (s + d)) _ (mkSlot env uTz zones d),
      filterMap_if_eq (fun s => allOk env zones s (s + d)) _ (mkSlot env uTz zones d),
      filterMap_if_eq (fun s => allOk env zones s (s + d)) _ (mkSlot env uTz zones d)]

/-! ## Concrete inputs used by witnesses -/

/-- A request with organizer zone UTC, one lead token UTC, duration 480. -/
def req480 : Req := { userTimezone := some "UTC", leadLocations := some "UTC", callDuration := some "480" }

/-- A request with the duration field absent. -/
def reqNoDur : Req := { userTimezone := some "UTC", leadLocations := some "london", callDuration := none }

/-- A request whose duration field is the string zero. -/
def reqZeroDur : Req := { userTimezone := some "UTC", leadLocations := some "paris", callDuration := some "0" }

/-! ## Claim theorems -/

/-- Claim C1: a candidate slot passes for a participant zone exactly when the
start instant projected into that zone has local hour at least 9 and the end
instant (start plus the duration) projected into that zone has local hour at
most 17; the slot is globally accepted exactly when this holds for every
participant.  The comparison is hour-only: a projected end of 17:30 local
(hour 17) passes, a projected end of 18:00 local (hour 18) fails. -/
theorem c1_acceptance_hour_rule (env : TzEnv) (zones : List String) (s d : Int) :
    (allOk env zones s (s + d) = true ↔
      ∀ tz ∈ zones, 9 ≤ hourIn env tz s ∧ hourIn env tz (s + d) ≤ 17)
    ∧ hourIn env0 "UTC" (17 * 60 + 30) = 17
    ∧ allOk env0 ["UTC"] (9 * 60) (17 * 60 + 30) = true
    ∧ hourIn env0 "UTC" (18 * 60) = 18
    ∧ allOk env0 ["UTC"] (9 * 60) (18 * 60) = false := by
  refine ⟨?_, by decide, by decide, by decide, by decide⟩
  simp [allOk, List.all_eq_true, Bool.and_eq_true, decide_eq_true_iff]

set_option maxRecDepth 4000 in
/-- Claim C3 counterexample: a duration of exactly 480 minutes does not give
an empty candidate-hour enumeration; hour 9 is enumerated, the full-day
9:00-17:00 slot is accepted (here with a UTC organizer and a UTC lead), and
the rendered table is not the empty-state table. -/
theorem c3_counterexample :
    candidateHours 480 = [9]
    ∧ findSlots env0 0 "UTC" ["UTC"] 480 ≠ []
    ∧ handler env0 0 req480 ≠ Resp.ok (buildTable ["UTC"] []) "" := by
  refine ⟨by decide, by decide, by decide⟩

/-- Claim C3 as amended: a duration of exactly 480 minutes yields exactly one
candidate hour, 9 (the full 9:00-17:00 business day); only durations
strictly greater than 480 yield an empty enumeration, and for those no slot
is ever accepted and the table carries the empty-state row. -/
theorem c3_duration_boundary (d : Int) (hd : 480 < d) :
    candidateHours 480 = [9]
    ∧ candidateHours d = []
    ∧ (∀ env now uTz zones, findSlots env now uTz zones d = [])
    ∧ (∀ zones, buildTable zones [] =
        tableHeader zones ++ emptyRow (1 + zones.length) ++ "</table>") := by
  have hch : candidateHours d = [] := by
    unfold candidateHours ceilDiv60
    have hz : (17 - (d + 59) / 60 - 8).toNat = 0 := by omega
    rw [hz]
    rfl
  refine ⟨by decide, hch, ?_, ?_⟩
  · intro env now uTz zones
    have h3 : List.range 3 = [0, 1, 2] := rfl
    unfold findSlots
    rw [h3, hch]
    rfl
  · intro zones
    simp [buildTable]

/-- Witness for c3_duration_boundary at the concrete duration 481. -/
theorem c3_duration_boundary_witness :
    (480 : Int) < 481 ∧ candidateHours 481 = [] :=
  ⟨by decide, (c3_duration_boundary 481 (by decide)).2.1⟩

/-- Claim C5: when the duration field is absent or does not parse as a
number, the effective duration is 30 and the handler behaves identically to
the same request with an explicit duration of 30. -/
theorem c5_duration_default (env : TzEnv) (now : Int) (req : Req)
    (h : req.callDuration = none ∨ ∃ s, req.callDuration = some s ∧ parseIntM s = none) :
    computeDuration req.callDuration = 30
    ∧ handler env now req = handler env now { req with callDuration := some "30" } := by
  have hd : computeDuration req.callDuration = 30 := by
    rcases h with h | ⟨s, hs, hp⟩
    · rw [h]
      rfl
    · rw [hs]
      simp [computeDuration, hp]
  exact ⟨hd, handler_congr_dur env now req (some "30") (by rw [hd]; decide)⟩

/-- Witness for c5_duration_default: an absent duration field. -/
theorem c5_duration_default_witness :
    computeDuration reqNoDur.callDuration = 30
    ∧ handler env0 0 reqNoDur = handler env0 0 { reqNoDur with callDuration := some "30" } :=
  c5_duration_default env0 0 reqNoDur (Or.inl rfl)

/-- Claim C10: the string zero parses to the number 0, yet the effective
duration is 30, because the parsed value is combined with the default by
falsy-coalescing; such a request behaves identically to an explicit
duration of 30. -/
theorem c10_zero_duration_default (env : TzEnv) (now : Int) (req : Req)
    (h : req.callDuration = some "0") :
    parseIntM "0" = some 0
    ∧ computeDuration req.callDuration = 30
    ∧ handler env now req = handler env now { req with callDuration := some "30" } := by
  have hd : computeDuration req.callDuration = 30 := by
    rw [h]
    decide
  exact ⟨by decide, hd, handler_congr_dur env now req (some "30") (by rw [hd]; decide)⟩

/-- Witness for c10_zero_duration_default at a concrete request. -/
theorem c10_zero_duration_default_witness :
    parseIntM "0" = some 0
    ∧ computeDuration reqZeroDur.callDuration = 30
    ∧ handler env0 0 reqZeroDur = handler env0 0 { reqZeroDur with callDuration := some "30" } :=
  c10_zero_duration_default env0 0 reqZeroDur rfl

/-- Claim C6: a token whose lowercase form is a key of the city table
resolves to the canonical zone of that lowercase key (case-insensitive
matching); a nonempty token missing from the table is used verbatim; and
tokens are obtained by splitting on commas, trimming each piece, and
dropping the pieces that are empty after trimming while preserving the
relative order of the rest. -/
theorem c6_location_resolution :
    (∀ s z, lookupCity (jsToLower s) = some z → resolveToken s = z)
    ∧ (∀ s, s ≠ "" → lookupCity (jsToLower s) = none → resolveToken s = s)
    ∧ (∀ raw, tokenize raw = ((jsSplitComma raw).map jsTrim).filter (fun t => t != ""))
    ∧ (∀ raw, List.Sublist (tokenize raw) ((jsSplitComma raw).map jsTrim)) := by
  refine ⟨?_, ?_, ?_, ?_⟩
  · intro s z h
    simp [resolveToken, h]
  · intro s hne h
    simp [resolveToken, h, hne]
  · intro raw
    unfold tokenize
    apply List.filter_congr
    intro t _
    by_cases h : t = ""
    · subst h
      rfl
    · have h1 : t.isEmpty = false := by
        cases hE : t.isEmpty
        · rfl
        · exact absurd ((String.isEmpty_iff t).mp hE) h
      simp [h1, bne, h]
  · intro raw
    unfold tokenize
    exact List.filter_sublist _

/-- Witness for c6_location_resolution: a mixed-casing known city resolves
to the canonical zone of its lowercase key, and an unknown token that is a
valid IANA-style identifier is passed through verbatim. -/
theorem c6_location_resolution_witness :
    resolveToken "LoNdOn" = "Europe/London" ∧ resolveToken "Asia/Tokyo" = "Asia/Tokyo" :=
  ⟨c6_location_resolution.1 "LoNdOn" "Europe/London" (by decide),
   c6_location_resolution.2.1 "Asia/Tokyo" (by decide) (by decide)⟩

/-- Claim C9: once the required-field checks pass, every execution path of
the handler returns the success shape carrying a table string and a link
string; a fault thrown inside the try block is turned by the catch boundary
into the generic degraded-success payload, whose content does not depend on
the internal error text. -/
theorem c9_fault_boundary :
    (∀ (env : TzEnv) (now : Int) (req : Req) (uTz lls : String),
        req.userTimezone = some uTz → jsTrim uTz ≠ "" →
        req.leadLocations = some lls → jsTrim lls ≠ "" →
        ∃ tableHtml linkStr, handler env now req = Resp.ok tableHtml linkStr)
    ∧ (∀ e : String, catchBoundary (Except.error e) = Resp.ok serverErrorHtml "")
    ∧ (∀ e₁ e₂ : String, catchBoundary (Except.error e₁) = catchBoundary (Except.error e₂)) := by
  refine ⟨?_, fun e => rfl, fun _ _ => rfl⟩
  intro env now req uTz lls hu htu hl htl
  simp only [handler, catchBoundary, handlerBody, hu, hl]
  rw [if_neg htu, if_neg htl]
  cases hv : (uTz :: resolvedTzs lls).all env.valid <;> simp [hv]

/-- Witness for c9_fault_boundary at a concrete request and fault. -/
theorem c9_fault_boundary_witness :
    (∃ tableHtml linkStr, handler env0 0 req480 = Resp.ok tableHtml linkStr)
    ∧ catchBoundary (Except.error "boom") = Resp.ok serverErrorHtml "" :=
  ⟨c9_fault_boundary.1 env0 0 req480 "UTC" "UTC" rfl (by decide) rfl (by decide),
   c9_fault_boundary.2.1 "boom"⟩

/-- Claim C2: a missing or trim-empty organizer zone or lead-locations field
is rejected with a 400-class request error carrying a human-readable
message, before any computation; whereas when the fields are present but
some resolved zone identifier fails validation, the handler performs no
slot search and returns the 200-class degraded-success payload with the
invalid-timezone message and an empty link. -/
theorem c2_error_policy_asymmetry :
    (∀ (env : TzEnv) (now : Int) (req : Req),
        (req.userTimezone = none ∨ ∃ s, req.userTimezone = some s ∧ jsTrim s = "") →
        handler env now req = Resp.badRequest "Please provide your timezone.")
    ∧ (∀ (env : TzEnv) (now : Int) (req : Req) (uTz : String),
        req.userTimezone = some uTz → jsTrim uTz ≠ "" →
        (req.leadLocations = none ∨ ∃ s, req.leadLocations = some s ∧ jsTrim s = "") →
        handler env now req = Resp.badRequest "Please provide lead locations.")
    ∧ (∀ (env : TzEnv) (now : Int) (req : Req) (uTz lls : String),
        req.userTimezone = some uTz → jsTrim uTz ≠ "" →
        req.leadLocations = some lls → jsTrim lls ≠ "" →
        ((uTz :: resolvedTzs lls).all env.valid) = false →
        handler env now req = Resp.ok invalidTzHtml "") := by
  refine ⟨?_, ?_, ?_⟩
  · intro env now req h
    rcases h with h | ⟨s, hs, ht⟩
    · simp [handler, catchBoundary, handlerBody, h]
    · simp [handler, catchBoundary, handlerBody, hs, ht]
  · intro env now req uTz hu htu h
    rcases h with h | ⟨s, hs, ht⟩
    · simp [handler, catchBoundary, handlerBody, hu, htu, h]
    · simp [handler, catchBoundary, handlerBody, hu, htu, hs, ht]
  · intro env now req uTz lls hu htu hl htl hv
    simp [handler, catchBoundary, handlerBody, hu, htu, hl, htl, hv]

/-- Witness for c2_error_policy_asymmetry: all three branches at concrete
requests, with an unresolvable location in the third. -/
theorem c2_error_policy_asymmetry_witness :
    handler env0 0 { userTimezone := none, leadLocations := some "london", callDuration := none }
      = Resp.badRequest "Please provide your timezone."
    ∧ handler env0 0 { userTimezone := some "UTC", leadLocations := some "  ", callDuration := none }
      = Resp.badRequest "Please provide lead locations."
    ∧ handler envNowhere 0
        { userTimezone := some "UTC", leadLocations := some "Nowhere City", callDuration := none }
      = Resp.ok invalidTzHtml "" :=
  ⟨c2_error_policy_asymmetry.1 env0 0 _ (Or.inl rfl),
   c2_error_policy_asymmetry.2.1 env0 0 _ "UTC" rfl (by decide) (Or.inr ⟨"  ", rfl, by decide⟩),
   c2_error_policy_asymmetry.2.2 envNowhere 0 _ "UTC" "Nowhere City" rfl (by decide) rfl
     (by decide) (by decide)⟩

/-- Claim C7: every accepted slot is built from one start instant: its
organizer-local timestamp is the formatter applied to that instant projected
into the organizer zone, each per-participant timestamp is the same
formatter applied to the same instant projected into that participant zone
(in input order), and there is exactly one per-participant entry per
resolved participant. -/
theorem c7_round_trip (env : TzEnv) (now : Int) (uTz : String) (zones : List String) (d : Int)
    (slot : Slot) (h : slot ∈ findSlots env now uTz zones d) :
    ∃ s, slot = mkSlot env uTz zones d s
      ∧ slot.user = env.fmt (s + env.offset uTz) ++ " (" ++ uTz ++ ")"
      ∧ slot.leads = zones.map (fun tz => env.fmt (s + env.offset tz) ++ " (" ++ tz ++ ")")
      ∧ slot.leads.length = zones.length := by
  rw [findSlots_eq_map] at h
  obtain ⟨s, _, rfl⟩ := List.mem_map.mp h
  exact ⟨s, rfl, rfl, rfl, by simp [mkSlot]⟩

set_option maxRecDepth 4000 in
/-- Witness for c7_round_trip at the concrete accepted full-day slot. -/
theorem c7_round_trip_witness :
    ∃ s, mkSlot env0 "UTC" ["UTC"] 480 540 = mkSlot env0 "UTC" ["UTC"] 480 s
      ∧ (mkSlot env0 "UTC" ["UTC"] 480 540).user
          = env0.fmt (s + env0.offset "UTC") ++ " (" ++ "UTC" ++ ")"
      ∧ (mkSlot env0 "UTC" ["UTC"] 480 540).leads
          = ["UTC"].map (fun tz => env0.fmt (s + env0.offset tz) ++ " (" ++ tz ++ ")")
      ∧ (mkSlot env0 "UTC" ["UTC"] 480 540).leads.length = (["UTC"] : List String).length :=
  c7_round_trip env0 0 "UTC" ["UTC"] 480 (mkSlot env0 "UTC" ["UTC"] 480 540) (by decide)

/-! ## Chronology of the enumeration -/

/-- The accepted start instants contributed by one day offset. -/
def dayStarts (env : TzEnv) (now : Int) (uTz : String) (zones : List String) (d : Int) (day : Int) : List Int :=
  ((candidateHours d).map (startOfSlot env now uTz day)).filter (fun s => allOk env zones s (s + d))

lemma findSlotStarts_eq (env : TzEnv) (now : Int) (uTz : String) (zones : List String) (d : Int) :
    findSlotStarts env now uTz zones d =
      dayStarts env now uTz zones d 0 ++
        (dayStarts env now uTz zones d 1 ++ dayStarts env now uTz zones d 2) := by
  unfold findSlotStarts dayStarts
  have h3 : List.range 3 = [0, 1, 2] := rfl
  rw [h3]
  simp

lemma mem_dayStarts (env : TzEnv) (now : Int) (uTz : String) (zones : List String)
    (d day y : Int) :
    y ∈ dayStarts env now uTz zones d day ↔
      ∃ h, (9 ≤ h ∧ h ≤ 17 - ceilDiv60 d) ∧ allOk env zones y (y + d) = true
        ∧ y = startOfSlot env now uTz day h := by
  unfold dayStarts
  simp only [List.mem_filter, List.mem_map]
  constructor
  · rintro ⟨⟨h, hmem, rfl⟩, hacc⟩
    exact ⟨h, (mem_candidateHours d h).mp hmem, hacc, rfl⟩
  · rintro ⟨h, hb, hacc, rfl⟩
    exact ⟨⟨h, (mem_candidateHours d h).mpr hb, rfl⟩, hacc⟩

lemma pairwise_candidateHours (d : Int) : List.Pairwise (· < ·) (candidateHours d) := by
  unfold candidateHours
  rw [List.pairwise_map]
  exact (List.pairwise_lt_range _).imp (fun hab => by omega)

lemma pairwise_dayStarts (env : TzEnv) (now : Int) (uTz : String) (zones : List String)
    (d day : Int) : List.Pairwise (· ≤ ·) (dayStarts env now uTz zones d day) := by
  unfold dayStarts
  apply List.Pairwise.filter
  rw [List.pairwise_map]
  refine (pairwise_candidateHours d).imp (fun hab => ?_)
  simp only [startOfSlot_eq]
  omega

lemma head_le_dayStarts (env : TzEnv) (now : Int) (uTz : String) (zones : List String)
    (d day x : Int) (xs : List Int) (hx : dayStarts env now uTz zones d day = x :: xs) :
    ∀ y ∈ dayStarts env now uTz zones d day, x ≤ y := by
  intro y hy
  have hp := pairwise_dayStarts env now uTz zones d day
  rw [hx] at hp hy
  rcases List.mem_cons.mp hy with rfl | hy2
  · exact le_refl _
  · exact (List.pairwise_cons.mp hp).1 y hy2

lemma cross_dayStarts (env : TzEnv) (now : Int) (uTz : String) (zones : List String)
    (d d1 d2 : Int) (hd : d1 < d2) (x : Int)
    (hx : x ∈ dayStarts env now uTz zones d d1)
    (hmin : ∀ z ∈ dayStarts env now uTz zones d d1, x ≤ z)
    (y : Int) (hy : y ∈ dayStarts env now uTz zones d d2) : x ≤ y := by
  obtain ⟨h1, ⟨h1lo, h1hi⟩, hacc1, hxeq⟩ := (mem_dayStarts env now uTz zones d d1 x).mp hx
  obtain ⟨h2, ⟨h2lo, h2hi⟩, hacc2, hyeq⟩ := (mem_dayStarts env now uTz zones d d2 y).mp hy
  by_cases hc : h2 + 24 * (d2 - d1) ≤ 17 - ceilDiv60 d
  · have hyd1 : y ∈ dayStarts env now uTz zones d d1 := by
      apply (mem_dayStarts env now uTz zones d d1 y).mpr
      refine ⟨h2 + 24 * (d2 - d1), ⟨by omega, hc⟩, hacc2, ?_⟩
      rw [hyeq]
      simp only [startOfSlot_eq]
      omega
    exact hmin y hyd1
  · rw [hxeq, hyeq]
    simp only [startOfSlot_eq]
    omega

lemma head_eq_of_append_cons (A rest : List Int) (a : Int) (t : List Int) (x : Int) (xs : List Int)
    (hA : A = a :: t) (hx : A ++ rest = x :: xs) : a = x := by
  subst hA
  rw [List.cons_append] at hx
  exact ((List.cons.injEq _ _ _ _).mp hx).1

lemma head_min_starts (env : TzEnv) (now : Int) (uTz : String) (zones : List String)
    (d : Int) (x : Int) (xs : List Int)
    (hx : findSlotStarts env now uTz zones d = x :: xs) :
    ∀ y ∈ findSlotStarts env now uTz zones d, x ≤ y := by
  rw [findSlotStarts_eq] at hx ⊢
  intro y hy
  have hy3 : y ∈ dayStarts env now uTz zones d 0 ∨
      y ∈ dayStarts env now uTz zones d 1 ∨ y ∈ dayStarts env now uTz zones d 2 := by
    rcases List.mem_append.mp hy with h0 | h12
    · exact Or.inl h0
    · rcases List.mem_append.mp h12 with h1 | h2
      · exact Or.inr (Or.inl h1)
      · exact Or.inr (Or.inr h2)
  cases hD0 : dayStarts env now uTz zones d 0 with
  | cons a t =>
    have hxa : a = x := head_eq_of_append_cons _ _ a t x xs hD0 hx
    subst hxa
    have hmin0 := head_le_dayStarts env now uTz zones d 0 a t hD0
    have ha0 : a ∈ dayStarts env now uTz zones d 0 := by
      rw [hD0]
      exact List.mem_cons_self a t
    rcases hy3 with h0 | h1 | h2
    · exact hmin0 y h0
    · exact cross_dayStarts env now uTz zones d 0 1 (by omega) a ha0 hmin0 y h1
    · exact cross_dayStarts env now uTz zones d 0 2 (by omega) a ha0 hmin0 y h2
  | nil =>
    rw [hD0, List.nil_append] at hx
    cases hD1 : dayStarts env now uTz zones d 1 with
    | cons a t =>
      have hxa : a = x := head_eq_of_append_cons _ _ a t x xs hD1 hx
      subst hxa
      have hmin1 := head_le_dayStarts env now uTz zones d 1 a t hD1
      have ha1 : a ∈ dayStarts env now uTz zones d 1 := by
        rw [hD1]
        exact List.mem_cons_self a t
      rcases hy3 with h0 | h1 | h2
      · rw [hD0] at h0
        cases h0
      · exact hmin1 y h1
      · exact cross_dayStarts env now uTz zones d 1 2 (by omega) a ha1 hmin1 y h2
    | nil =>
      rw [hD1, List.nil_append] at hx
      rcases hy3 with h0 | h1 | h2
      · rw [hD0] at h0
        cases h0
      · rw [hD1] at h1
        cases h1
      · exact head_le_dayStarts env now uTz zones d 2 x xs hx y h2

lemma mem_findSlotStarts (env : TzEnv) (now : Int) (uTz : String) (zones : List String)
    (d y : Int) :
    y ∈ findSlotStarts env now uTz zones d ↔
      ∃ day : Int, (day = 0 ∨ day = 1 ∨ day = 2) ∧
        ∃ h, (9 ≤ h ∧ h ≤ 17 - ceilDiv60 d) ∧ allOk env zones y (y + d) = true
          ∧ y = startOfSlot env now uTz day h := by
  rw [findSlotStarts_eq]
  constructor
  · intro hy
    rcases List.mem_append.mp hy with h0 | h12
    · exact ⟨0, Or.inl rfl, (mem_dayStarts env now uTz zones d 0 y).mp h0⟩
    · rcases List.mem_append.mp h12 with h1 | h2
      · exact ⟨1, Or.inr (Or.inl rfl), (mem_dayStarts env now uTz zones d 1 y).mp h1⟩
      · exact ⟨2, Or.inr (Or.inr rfl), (mem_dayStarts env now uTz zones d 2 y).mp h2⟩
  · rintro ⟨day, hday, hrest⟩
    rcases hday with rfl | rfl | rfl
    · exact List.mem_append.mpr (Or.inl ((mem_dayStarts env now uTz zones d 0 y).mpr hrest))
    · exact List.mem_append.mpr (Or.inr (List.mem_append.mpr
        (Or.inl ((mem_dayStarts env now uTz zones d 1 y).mpr hrest))))
    · exact List.mem_append.mpr (Or.inr (List.mem_append.mpr
        (Or.inr ((mem_dayStarts env now uTz zones d 2 y).mpr hrest))))

lemma handler_search (env : TzEnv) (now : Int) (req : Req) (uTz lls : String)
    (hu : req.userTimezone = some uTz) (htu : jsTrim uTz ≠ "")
    (hl : req.leadLocations = some lls) (htl : jsTrim lls ≠ "")
    (hv : ((uTz :: resolvedTzs lls).all env.valid) = true) :
    handler env now req =
      Resp.ok
        (buildTable (resolvedTzs lls)
          (findSlots env now uTz (resolvedTzs lls) (computeDuration req.callDuration)))
        (match findSlots env now uTz (resolvedTzs lls) (computeDuration req.callDuration) with
         | [] => ""
         | s :: _ => s.link) := by
  simp only [handler, catchBoundary, handlerBody, hu, hl]
  rw [if_neg htu, if_neg htl]
  simp [hv]

set_option maxRecDepth 4000 in
/-- Claim C4 counterexample: the string -120 parses to the duration -120
(falsy-coalescing keeps it), and with that duration the enumeration reaches
start hour 19, producing an accepted slot whose organizer-local start lies
at 19:00, outside the 09:00-17:00 business envelope. -/
theorem c4_counterexample :
    parseIntM "-120" = some (-120)
    ∧ computeDuration (some "-120") = -120
    ∧ (1140 : Int) ∈ findSlotStarts env0 0 "UTC" ["UTC"] (-120)
    ∧ mkSlot env0 "UTC" ["UTC"] (-120) 1140 ∈ findSlots env0 0 "UTC" ["UTC"] (-120)
    ∧ ((1140 : Int) + env0.offset "UTC") % 1440 = 19 * 60
    ∧ (17 * 60 : Int) < 19 * 60 :=
  ⟨by decide, by decide, by decide, by decide, by decide, by decide⟩

/-- Claim C4 as amended: the candidate start hours are exactly the integers
in the closed interval from 9 to 17 minus the ceiling of the duration in
hours, each taken at hour granularity (the start instant is minute-aligned,
with no sub-hour component); and for nonnegative durations the
organizer-local window of every accepted slot lies inside the 09:00-17:00
business envelope.  For negative parsed durations the envelope containment
can fail (see the counterexample). -/
theorem c4_candidate_hours_envelope :
    (∀ d h, h ∈ candidateHours d ↔ 9 ≤ h ∧ h ≤ 17 - ceilDiv60 d)
    ∧ (∀ (env : TzEnv) (now : Int) (uTz : String) (zones : List String) (d s0 : Int),
        s0 ∈ findSlotStarts env now uTz zones d →
        (s0 + env.offset uTz) % 60 = 0
        ∧ (0 ≤ d →
            9 * 60 ≤ (s0 + env.offset uTz) % 1440
            ∧ (s0 + env.offset uTz) % 1440 + d ≤ 17 * 60)) := by
  refine ⟨fun d h => mem_candidateHours d h, ?_⟩
  intro env now uTz zones d s0 hmem
  obtain ⟨day, hday, h, ⟨hlo, hhi⟩, hacc, hs0⟩ :=
    (mem_findSlotStarts env now uTz zones d s0).mp hmem
  subst hs0
  simp only [startOfSlot_eq]
  unfold ceilDiv60 at hhi
  constructor
  · omega
  · intro hd0
    constructor <;> omega

/-- Witness for c4_candidate_hours_envelope at the accepted full-day slot. -/
theorem c4_candidate_hours_envelope_witness :
    ((540 : Int) + env0.offset "UTC") % 60 = 0
    ∧ (9 * 60 ≤ ((540 : Int) + env0.offset "UTC") % 1440
        ∧ ((540 : Int) + env0.offset "UTC") % 1440 + 480 ≤ 17 * 60) :=
  ⟨(c4_candidate_hours_envelope.2 env0 0 "UTC" ["UTC"] 480 540 (by decide)).1,
   (c4_candidate_hours_envelope.2 env0 0 "UTC" ["UTC"] 480 540 (by decide)).2 (by decide)⟩

/-- Claim C8: with valid fields and zones, an empty accepted-slot list
yields the success shape whose table is the header plus the single
empty-state row spanning one organizer column plus one column per resolved
participant, with an empty link; and a nonempty accepted-slot list yields
the booking link built solely from the first accepted slot, which is
chronologically earliest among all accepted start instants, encoding the
organizer zone, the ISO start, and the duration on the fixed cal.com
template. -/
theorem c8_empty_state_and_booking_link (env : TzEnv) (now : Int) (req : Req) (uTz lls : String)
    (hu : req.userTimezone = some uTz) (htu : jsTrim uTz ≠ "")
    (hl : req.leadLocations = some lls) (htl : jsTrim lls ≠ "")
    (hv : ((uTz :: resolvedTzs lls).all env.valid) = true) :
    (findSlots env now uTz (resolvedTzs lls) (computeDuration req.callDuration) = [] →
      handler env now req =
        Resp.ok
          (tableHeader (resolvedTzs lls) ++ emptyRow (1 + (resolvedTzs lls).length) ++ "</table>")
          "")
    ∧ (∀ s0 rest,
        findSlotStarts env now uTz (resolvedTzs lls) (computeDuration req.callDuration)
            = s0 :: rest →
        handler env now req =
          Resp.ok
            (buildTable (resolvedTzs lls)
              (findSlots env now uTz (resolvedTzs lls) (computeDuration req.callDuration)))
            ("https://cal.com/book?tz=" ++ env.enc uTz ++ "&start=" ++
              env.enc (env.iso (s0 + env.offset uTz) (env.offset uTz)) ++ "&duration=" ++
              toString (computeDuration req.callDuration))
          ∧ ∀ y ∈ findSlotStarts env now uTz (resolvedTzs lls) (computeDuration req.callDuration),
              s0 ≤ y) := by
  have hs := handler_search env now req uTz lls hu htu hl htl hv
  constructor
  · intro hempty
    rw [hs, hempty]
    simp [buildTable]
  · intro s0 rest hstarts
    have hfm := findSlots_eq_map env now uTz (resolvedTzs lls) (computeDuration req.callDuration)
    rw [hstarts] at hfm
    refine ⟨?_, head_min_starts env now uTz (resolvedTzs lls)
      (computeDuration req.callDuration) s0 rest hstarts⟩
    rw [hs, hfm]
    simp [mkSlot]

set_option maxRecDepth 4000 in
/-- Witness for c8_empty_state_and_booking_link on the concrete full-day
request, whose first accepted start is minute 540 of day zero. -/
theorem c8_empty_state_and_booking_link_witness :
    handler env0 0 req480 =
      Resp.ok
        (buildTable (resolvedTzs "UTC")
          (findSlots env0 0 "UTC" (resolvedTzs "UTC") (computeDuration req480.callDuration)))
        ("https://cal.com/book?tz=" ++ env0.enc "UTC" ++ "&start=" ++
          env0.enc (env0.iso (540 + env0.offset "UTC") (env0.offset "UTC")) ++ "&duration=" ++
          toString (computeDuration req480.callDuration))
    ∧ ∀ y ∈ findSlotStarts env0 0 "UTC" (resolvedTzs "UTC") (computeDuration req480.callDuration),
        (540 : Int) ≤ y :=
  (c8_empty_state_and_booking_link env0 0 req480 "UTC" "UTC" rfl (by decide) rfl (by decide)
    (by decide)).2 540 [1980, 3420] (by decide)
